import Mathlib

set_option maxRecDepth 100000

attribute [local semireducible] Rat.mul Rat.add Rat.sub Rat.inv

deriving instance DecidableEq for Except

/-!
Shallow embedding of the Gas-Checker API route (src/unnamed/part_000).

The source file holds two near-identical copies of the same Next.js route
(the second copy renames the pagination cursor variable and reads the
response key "after" instead of "before"; all control flow is identical).
The embedding below models the shared behaviour once; the cursor is an
opaque Option String and the request field name ("before" vs "after") is
not observable in the model.

Modelling conventions:
* JavaScript field values that the route inspects (gasUsed, gas,
  effectiveGasPrice, gasPrice, blockTimestamp) are modelled as
  Option FieldVal, where FieldVal is an integer or a string; absence is
  none.  JS truthiness of those values is the function truthy below
  (0 and "" are falsy, like in JS; NaN does not arise in the model
  because numeric fields are modelled as integers).
* BigInt(x) is modelled by toBigInt : FieldVal -> Option Int; none means
  the conversion throws (non-numeric string), which in the source is
  caught by the per-transaction try/catch and skips the transaction.
  Hexadecimal string forms accepted by BigInt are not modelled.
* Number(timestamp) followed by new Date(...).toISOString() is modelled
  by toNumber; a non-numeric string gives NaN, the Date is invalid and
  toISOString throws, which the per-transaction catch turns into a skip.
* IEEE-754 doubles (parseFloat(formatEther(...)), price values, the USD
  and ETH accumulators) are abstracted to exact rationals (Rat): the
  source never branches on those values, so which transactions are
  processed, the request traces and the exact wei totals are unaffected
  by this abstraction.  formatEther(w) followed by parseFloat is w/10^18.
* Network providers are injected: the history provider is a list of page
  responses consumed one per loop iteration (an exhausted list stands
  for an unreachable provider and is reported as a transport error), and
  the price provider is a function from the queried timestamp to a
  response (the HTTP request of fetchHistoricalETHPrice is a
  deterministic function of that timestamp: the window
  [timestamp, timestamp + 3600000) rendered in ISO-8601).
* The outgoing requests made by the route are returned as explicit
  traces (histReqs, priceCalls); they are instrumentation recording the
  I/O the source performs, not program state.
* Number.prototype.toFixed(2) is modelled by toFixed2, following the
  ECMA-262 algorithm on the exact rational value: sign split first, then
  values at least 10^21 fall back to Number::toString (exponential
  notation), otherwise fixed notation with two fractional digits, with
  the nearest integer n to 100*x chosen, ties picking the larger n.
* JSON.stringify on the two response bodies of GET is abstracted to the
  structured value BodyVal (string rendering of the embedded floats is
  outside the rational abstraction); the error body keeps its message
  verbatim.
-/

namespace GasChecker

/-- A JavaScript value carried by a transaction field: the provider
returns numbers or numeric strings. -/
inductive FieldVal where
  | num (n : Int)
  | str (s : String)
deriving DecidableEq, Repr

/-- JS truthiness of a field value: 0 and the empty string are falsy. -/
def truthy : FieldVal → Bool
  | .num n => n != 0
  | .str s => s != ""

/-- JS truthiness of a possibly-absent field (undefined is falsy). -/
def truthyO : Option FieldVal → Bool
  | none => false
  | some v => truthy v

/-- JS a || b on possibly-absent field values. -/
def jsOr (a b : Option FieldVal) : Option FieldVal :=
  if truthyO a then a else b

/-- Extract the value of a field known to be truthy (hence present). -/
def jsVal (o : Option FieldVal) : FieldVal := o.getD (.num 0)

/-- BigInt(x): integral numbers convert, decimal integer strings parse;
none models the TypeError/SyntaxError throw on anything else. -/
def toBigInt : FieldVal → Option Int
  | .num n => some n
  | .str s => s.toInt?

/-- Number(x) as used on blockTimestamp before new Date(...).toISOString():
none models the NaN/invalid-Date path, where toISOString throws. -/
def toNumber : FieldVal → Option Int
  | .num n => some n
  | .str s => s.toInt?

/-- A transaction record as consumed by calculateTotalGasCost. -/
structure Tx where
  hash : String
  gasUsed : Option FieldVal
  gas : Option FieldVal
  effectiveGasPrice : Option FieldVal
  gasPrice : Option FieldVal
  blockTimestamp : Option FieldVal
deriving DecidableEq, Repr

/-- JS truthiness of the pagination cursor (a missing or empty string
cursor ends the loop). -/
def truthyStr : Option String → Bool
  | none => false
  | some s => s != ""

/-- JS truthiness of the transactions array of a page response combined
with the Array.isArray and length > 0 checks of the source. -/
def truthyList (o : Option (List Tx)) : Bool :=
  match o with
  | none => false
  | some l => !l.isEmpty

/-- One POST request issued by the history fetcher: the address, the
limit field (the source always sends 50) and the cursor field (absent on
the first request; sent as "before" in the first copy of the source and
as "after" in the second). -/
structure PageReq where
  address : String
  limit : Nat
  cursor : Option String
deriving DecidableEq, Repr

/-- One response of the history provider: a transactions array (none
models a missing key) and an optional next-page cursor, or a
transport/provider error carrying its message. -/
inductive PageResp where
  | ok (transactions : Option (List Tx)) (cursor : Option String)
  | err (msg : String)
deriving DecidableEq, Repr

/-- The while-loop of fetchTransactionHistory: one scripted response is
consumed per iteration; the issued requests are returned as a trace.
An exhausted script models an unreachable provider (transport error). -/
def fetchHistoryLoop (address : String) (cursor : Option String) :
    List PageResp → List PageReq × Except String (List Tx)
  | [] => ([⟨address, 50, cursor⟩], .error "no response from provider")
  | resp :: rest =>
    let req : PageReq := ⟨address, 50, cursor⟩
    match resp with
    | .err msg => ([req], .error msg)
    | .ok otxs nextCur =>
      if truthyList otxs then
        let txs := otxs.getD []
        if truthyStr nextCur then
          let next := fetchHistoryLoop address nextCur rest
          (req :: next.1,
            match next.2 with
            | .ok more => .ok (txs ++ more)
            | .error m => .error m)
        else ([req], .ok txs)
      else ([req], .ok [])

/-- fetchTransactionHistory: starts with no cursor, follows cursors until
a response has no (or an empty) cursor or no transactions, concatenating
the pages; any error aborts the whole fetch with no partial result. -/
def fetchTransactionHistory (address : String) (script : List PageResp) :
    List PageReq × Except String (List Tx) :=
  fetchHistoryLoop address none script

/-- The historical-price provider: a response is a list of price points
(the data array; each point abstracted to its parsed value) or a
transport/provider error. -/
inductive PriceApiResult where
  | ok (points : List Rat)
  | err (msg : String)

/-- fetchHistoricalETHPrice: converts the timestamp, queries the provider
and returns the first point's value, none for "not found", or the error.
The first component is the trace of provider calls actually made (empty
when toISOString throws before the request). -/
def fetchHistoricalETHPrice (oracle : Int → PriceApiResult)
    (timestamp : FieldVal) : List Int × Except String (Option Rat) :=
  match toNumber timestamp with
  | none => ([], .error "Invalid time value")
  | some ts =>
    match oracle ts with
    | .err msg => ([ts], .error msg)
    | .ok points =>
      match points with
      | [] => ([ts], .ok none)
      | v :: _ => ([ts], .ok (some v))

/-- One entry of the per-transaction breakdown pushed onto txCosts. -/
structure TxCost where
  hash : String
  timestamp : Option FieldVal
  costETH : Rat
  costUSD : Rat
deriving DecidableEq, Repr

/-- The mutable locals of calculateTotalGasCost, plus the priceCalls
instrumentation trace (the timestamps for which the price provider was
actually queried). -/
structure AggState where
  totalGasCostWei : Int
  totalGasCostETH : Rat
  totalGasCostUSD : Rat
  txCosts : List TxCost
  lastValidPrice : Option Rat
  priceCalls : List Int
deriving DecidableEq, Repr

/-- Initial accumulator state of calculateTotalGasCost. -/
def initAggState : AggState := ⟨0, 0, 0, [], none, []⟩

/-- The accumulation step shared by the two priced branches of the loop:
cost computation, the three totals, the txCosts push; upd tells whether
lastValidPrice is updated (price freshly resolved) or kept (fallback). -/
def push (st : AggState) (tx : Tx) (txCostWei : Int)
    (txCostETH histPriceUSD : Rat) (upd : Bool) : AggState :=
  let txCostUSD := txCostETH * histPriceUSD
  { totalGasCostWei := st.totalGasCostWei + txCostWei
    totalGasCostETH := st.totalGasCostETH + txCostETH
    totalGasCostUSD := st.totalGasCostUSD + txCostUSD
    txCosts := st.txCosts ++ [⟨tx.hash, tx.blockTimestamp, txCostETH, txCostUSD⟩]
    lastValidPrice := if upd then some histPriceUSD else st.lastValidPrice
    priceCalls := st.priceCalls }

/-- The body of the for-loop of calculateTotalGasCost for one
transaction.  Field checks mirror lines 100-111 of the source; the
try/catch of lines 113-153 catches a BigInt conversion failure, an
invalid-Date throw and a hard price-provider error alike, so all of
those paths leave the accumulator unchanged (the transaction is skipped)
and the loop continues. -/
def processTx (price : Int → PriceApiResult) (st : AggState) (tx : Tx) :
    AggState :=
  let gasUsedValue := jsOr tx.gasUsed tx.gas
  if !truthyO gasUsedValue then st
  else
    let gasPriceValue := jsOr tx.effectiveGasPrice tx.gasPrice
    if !truthyO gasPriceValue then st
    else
      match toBigInt (jsVal gasUsedValue), toBigInt (jsVal gasPriceValue) with
      | some gasUsedBig, some gasPriceBig =>
        let txCostWei := gasUsedBig * gasPriceBig
        let txCostETH : Rat := (txCostWei : Rat) / (10 : Rat) ^ 18
        if !truthyO tx.blockTimestamp then st
        else
          let pc := fetchHistoricalETHPrice price (jsVal tx.blockTimestamp)
          let st1 := { st with priceCalls := st.priceCalls ++ pc.1 }
          match pc.2 with
          | .error _ => st1
          | .ok none =>
            match st1.lastValidPrice with
            | none => st1
            | some lastP => push st1 tx txCostWei txCostETH lastP false
          | .ok (some histPriceUSD) => push st1 tx txCostWei txCostETH histPriceUSD true
      | _, _ => st

/-- The for-loop of calculateTotalGasCost over the fetched transactions. -/
def aggregateTxs (price : Int → PriceApiResult) (txs : List Tx) : AggState :=
  txs.foldl (processTx price) initAggState

/-- Truncation of a nonnegative rational to a natural number.  For
x >= 0 this is the floor, and the ECMA-262 toFixed step choosing the
integer n closest to 100*x (ties to the larger) is floor(100*x + 1/2). -/
def ratTrunc (q : Rat) : Nat := q.num.toNat / q.den

/-- Number::toString for a (nonnegative integral) value of magnitude at
least 10^21: exponential notation d.ddd e+NN with trailing zeros of the
mantissa removed, as in ECMA-262 (the shortest-round-trip digit choice
of the source's doubles is abstracted to the exact digits). -/
def jsExpString (n : Nat) : String :=
  match Nat.toDigits 10 n with
  | [] => "0"
  | d :: rest =>
    let restTrim := (rest.reverse.dropWhile (fun c => c == '0')).reverse
    let mant := if restTrim.isEmpty then String.mk [d]
                else String.mk (d :: '.' :: restTrim)
    mant ++ "e+" ++ Nat.repr rest.length

/-- The two fractional digits of the fixed-notation branch of toFixed. -/
def twoDigitChars (k : Nat) : List Char :=
  [Nat.digitChar (k / 10), Nat.digitChar (k % 10)]

/-- Number.prototype.toFixed(2) on a nonnegative value, per ECMA-262:
values at least 10^21 are rendered by Number::toString, otherwise the
integer n nearest to 100*x (ties to the larger) is split as
n/100 . n%100. -/
def toFixed2abs (q : Rat) : String :=
  if (10 : Rat) ^ 21 ≤ q then jsExpString (ratTrunc q)
  else
    let n : Nat := ratTrunc (100 * q + 1 / 2)
    Nat.repr (n / 100) ++ "." ++ String.mk (twoDigitChars (n % 100))

/-- Number.prototype.toFixed(2): ECMA-262 splits the sign first, then
renders the absolute value. -/
def toFixed2 (q : Rat) : String :=
  if q < 0 then "-" ++ toFixed2abs (-q) else toFixed2abs q

/-- The AggregateResult returned by calculateTotalGasCost:
totalGasCostWei is BigInt.prototype.toString (exact decimal),
totalGasCostUSD is toFixed(2); totalGasCostETH is stringified from a
double in the source and is kept as the rational value here (see the
header notes). -/
structure AggregateResult where
  totalGasCostWei : String
  totalGasCostETH : Rat
  totalGasCostUSD : String
  transactionCosts : List TxCost
deriving DecidableEq, Repr

/-- The return-object construction of calculateTotalGasCost. -/
def buildResult (st : AggState) : AggregateResult :=
  { totalGasCostWei := Int.repr st.totalGasCostWei
    totalGasCostETH := st.totalGasCostETH
    totalGasCostUSD := toFixed2 st.totalGasCostUSD
    transactionCosts := st.txCosts }

/-- The outcome of one call to calculateTotalGasCost together with the
traces of the upstream requests it issued. -/
structure CallResult where
  result : Except String AggregateResult
  histReqs : List PageReq
  priceCalls : List Int

/-- calculateTotalGasCost: fetch the full history (its failure
propagates), then fold the per-transaction loop and build the result. -/
def calculateTotalGasCost (script : List PageResp)
    (price : Int → PriceApiResult) (address : String) : CallResult :=
  let fr := fetchTransactionHistory address script
  match fr.2 with
  | .error m => ⟨.error m, fr.1, []⟩
  | .ok txs =>
    let st := aggregateTxs price txs
    ⟨.ok (buildResult st), fr.1, st.priceCalls⟩

/-- The body of a Response produced by the GET handler: JSON.stringify
of either the error object or the aggregate result. -/
inductive BodyVal where
  | errObj (msg : String)
  | resultObj (r : AggregateResult)
deriving DecidableEq, Repr

/-- A Response of the GET handler, plus the upstream request traces of
the call (both empty when no upstream call was attempted). -/
structure GetResult where
  status : Nat
  body : BodyVal
  histReqs : List PageReq
  priceCalls : List Int

/-- The GET handler: a missing or empty address parameter returns 400
immediately; otherwise the aggregation runs and its result (or the
propagated error, as 500) is returned. -/
def GET (address : Option String) (script : List PageResp)
    (price : Int → PriceApiResult) : GetResult :=
  if !truthyStr address then
    ⟨400, .errObj "Missing address parameter", [], []⟩
  else
    let c := calculateTotalGasCost script price (address.getD "")
    match c.result with
    | .ok r => ⟨200, .resultObj r, c.histReqs, c.priceCalls⟩
    | .error m => ⟨500, .errObj m, c.histReqs, c.priceCalls⟩

/-- An accumulator whose totals and lists are empty but whose last valid
price is lastP: the state a transaction would be processed against to
read off its own contribution. -/
def baseState (lastP : Option Rat) : AggState := ⟨0, 0, 0, [], lastP, []⟩

/-- Componentwise combination of a state with a contribution: totals
add, lists append, the last valid price is the contribution's. -/
def mergeState (st d : AggState) : AggState :=
  ⟨st.totalGasCostWei + d.totalGasCostWei,
   st.totalGasCostETH + d.totalGasCostETH,
   st.totalGasCostUSD + d.totalGasCostUSD,
   st.txCosts ++ d.txCosts,
   d.lastValidPrice,
   st.priceCalls ++ d.priceCalls⟩

/-- The exact wei contribution of each transaction of a list, processed
in order against the evolving last-valid-price slot (skipped
transactions contribute 0). -/
def perTxWei (p : Int → PriceApiResult) (lastP : Option Rat) :
    List Tx → List Int
  | [] => []
  | tx :: rest =>
    let d := processTx p (baseState lastP) tx
    d.totalGasCostWei :: perTxWei p d.lastValidPrice rest

/-- A well-formed transaction record for concrete test runs: all fields
numeric 1, hash the decimal rendering of i. -/
def wTx (i : Nat) : Tx :=
  ⟨Nat.repr i, some (.num 1), none, some (.num 1), none, some (.num 1)⟩

/-- First concrete page: 50 records. -/
def wPage1 : List Tx := (List.range 50).map wTx

/-- Second concrete page: 50 further records. -/
def wPage2 : List Tx := (List.range 50).map (fun i => wTx (50 + i))

/-- Third concrete page: 10 further records. -/
def wPage3 : List Tx := (List.range 10).map (fun i => wTx (100 + i))

/-- A one-page prefix of full continuing pages for the abort scenario. -/
def w5pre : List PageResp := [PageResp.ok (some [wTx 0]) (some "c")]

/-- A transaction with all of gasUsed, effectiveGasPrice and
blockTimestamp set to plain numbers (gas and gasPrice absent). -/
def mkTx (h : String) (g pr ts : Int) : Tx :=
  ⟨h, some (.num g), none, some (.num pr), none, some (.num ts)⟩

/-- A transaction missing both gas fields. -/
def txM : Tx := ⟨"m", none, none, some (.num 1), none, some (.num 1)⟩

/-- A transaction whose gasUsed is present but numerically 0 (falsy). -/
def tx10a : Tx := ⟨"z0", some (.num 0), none, some (.num 1), none, some (.num 1)⟩

/-- A transaction whose effectiveGasPrice is the empty string (falsy). -/
def tx10b : Tx := ⟨"z1", some (.num 1), none, some (.str ""), none, some (.num 1)⟩

/-- A valid transaction whose price lookup will hard-error. -/
def c1tx : Tx := mkTx "t" 1 1 5

/-- A one-page history containing only c1tx. -/
def c1script : List PageResp := [PageResp.ok (some [c1tx]) none]

/-- A price provider that always fails with a transport error. -/
def c1price : Int → PriceApiResult := fun _ => PriceApiResult.err "boom"

/-- A transaction whose gas quantities both exceed 2^53. -/
def w2tx : Tx := mkTx "t1" (2 ^ 60) (2 ^ 61) 1000

/-- A one-page history containing only w2tx. -/
def w2script : List PageResp := [PageResp.ok (some [w2tx]) none]

/-- A price provider resolving every window to price 1. -/
def w2price : Int → PriceApiResult := fun _ => PriceApiResult.ok [1]

/-- The aggregate result of running w2script against w2price: the wei
total is exactly 2^121 = 2^60 * 2^61 rendered in decimal. -/
def w2res : AggregateResult :=
  ⟨"2658455991569831745807614120560689152", (2 ^ 121 : Rat) / 10 ^ 18,
   "2658455991569831745.81",
   [⟨"t1", some (.num 1000), (2 ^ 121 : Rat) / 10 ^ 18, (2 ^ 121 : Rat) / 10 ^ 18⟩]⟩

/-- A transaction whose USD cost reaches 10^21. -/
def c8tx : Tx := mkTx "x" (10 ^ 21) (10 ^ 18) 5

/-- A one-page history containing only c8tx. -/
def c8script : List PageResp := [PageResp.ok (some [c8tx]) none]

/-- A price provider resolving every window to price 1. -/
def c8price : Int → PriceApiResult := fun _ => PriceApiResult.ok [1]

/-- The aggregate result of running c8script against c8price: its USD
total 10^21 is rendered by toFixed(2) in exponential notation. -/
def c8res : AggregateResult :=
  ⟨Int.repr ((10 : Int) ^ 39), (10 : Rat) ^ 21, "1e+21",
   [⟨"x", some (.num 5), (10 : Rat) ^ 21, (10 : Rat) ^ 21⟩]⟩

/-- An accumulator whose USD total is the integer 10. -/
def w8st : AggState := ⟨0, 0, 10, [], none, []⟩

/-- Drop a leading minus sign from a character list. -/
def stripSign (cs : List Char) : List Char :=
  if cs.head? = some '-' then cs.tail else cs

/-- Whether a character list (after an optional sign) is a fixed decimal
with a nonempty all-digit integer part, one dot and exactly two digit
characters after it. -/
def decideTwoFrac (cs0 : List Char) : Bool :=
  match (stripSign cs0).reverse with
  | d2 :: d1 :: dot :: rest =>
    (dot == '.') && d1.isDigit && d2.isDigit && !rest.isEmpty &&
      rest.all Char.isDigit
  | _ => false

/-- Whether a string is a decimal numeral with exactly two fractional
digits. -/
def twoFracDigits (s : String) : Bool := decideTwoFrac s.data

end GasChecker

namespace GasChecker

/-- Processing one transaction acts on the accumulator by adding a
contribution that depends on the state only through the last valid
price: the loop body of calculateTotalGasCost is a homomorphic update. -/
theorem processTx_split (p : Int → PriceApiResult) (st : AggState) (tx : Tx) :
    processTx p st tx = mergeState st (processTx p (baseState st.lastValidPrice) tx) := by
  obtain ⟨wei, eth, usd, costs, lastP, calls⟩ := st
  cases h1 : truthyO (jsOr tx.gasUsed tx.gas) with
  | false => simp [processTx, h1, mergeState, baseState]
  | true =>
  cases h2 : truthyO (jsOr tx.effectiveGasPrice tx.gasPrice) with
  | false => simp [processTx, h1, h2, mergeState, baseState]
  | true =>
  rcases hg : toBigInt (jsVal (jsOr tx.gasUsed tx.gas)) with _ | g
  · simp [processTx, h1, h2, hg, mergeState, baseState]
  rcases hpr : toBigInt (jsVal (jsOr tx.effectiveGasPrice tx.gasPrice)) with _ | pr
  · simp [processTx, h1, h2, hg, hpr, mergeState, baseState]
  cases h3 : truthyO tx.blockTimestamp with
  | false => simp [processTx, h1, h2, hg, hpr, h3, mergeState, baseState]
  | true =>
  rcases hfp : fetchHistoricalETHPrice p (jsVal tx.blockTimestamp) with ⟨pcalls, res⟩
  rcases res with m | op
  · simp [processTx, h1, h2, hg, hpr, h3, hfp, mergeState, baseState]
  rcases op with _ | v
  · rcases lastP with _ | lp
    · simp [processTx, h1, h2, hg, hpr, h3, hfp, mergeState, baseState]
    · simp [processTx, h1, h2, hg, hpr, h3, hfp, mergeState, baseState, push]
  · simp [processTx, h1, h2, hg, hpr, h3, hfp, mergeState, baseState, push]

/-- The wei component of one loop step, isolated from the state. -/
theorem processTx_wei (p : Int → PriceApiResult) (st : AggState) (tx : Tx) :
    (processTx p st tx).totalGasCostWei =
      st.totalGasCostWei + (processTx p (baseState st.lastValidPrice) tx).totalGasCostWei := by
  rw [processTx_split]; rfl

/-- The evolution of the last valid price depends on the state only
through the last valid price itself. -/
theorem processTx_lastP (p : Int → PriceApiResult) (st : AggState) (tx : Tx) :
    (processTx p st tx).lastValidPrice =
      (processTx p (baseState st.lastValidPrice) tx).lastValidPrice := by
  rw [processTx_split]; rfl

/-- The wei total of the whole loop is the starting total plus the sum
of the per-transaction wei contributions. -/
theorem foldl_wei (p : Int → PriceApiResult) :
    ∀ (txs : List Tx) (st : AggState),
      (txs.foldl (processTx p) st).totalGasCostWei =
        st.totalGasCostWei + (perTxWei p st.lastValidPrice txs).sum := by
  intro txs
  induction txs with
  | nil => intro st; simp [perTxWei]
  | cons tx rest ih =>
    intro st
    simp only [List.foldl_cons, perTxWei, List.sum_cons]
    rw [ih (processTx p st tx), processTx_wei, processTx_lastP, add_assoc]

/-- Each per-transaction contribution either is a skip (wei 0 and no
txCosts entry) or carries the exact product of the two parsed BigInt
quantities, with exactly one breakdown entry for that transaction. -/
theorem perTx_element (p : Int → PriceApiResult) (lastP : Option Rat) (tx : Tx) :
    ((processTx p (baseState lastP) tx).totalGasCostWei = 0 ∧
        (processTx p (baseState lastP) tx).txCosts = []) ∨
      ∃ g pr, toBigInt (jsVal (jsOr tx.gasUsed tx.gas)) = some g ∧
        toBigInt (jsVal (jsOr tx.effectiveGasPrice tx.gasPrice)) = some pr ∧
        (processTx p (baseState lastP) tx).totalGasCostWei = g * pr ∧
        (processTx p (baseState lastP) tx).txCosts.map TxCost.hash = [tx.hash] := by
  cases h1 : truthyO (jsOr tx.gasUsed tx.gas) with
  | false => left; simp [processTx, h1, baseState]
  | true =>
  cases h2 : truthyO (jsOr tx.effectiveGasPrice tx.gasPrice) with
  | false => left; simp [processTx, h1, h2, baseState]
  | true =>
  rcases hg : toBigInt (jsVal (jsOr tx.gasUsed tx.gas)) with _ | g
  · left; simp [processTx, h1, h2, hg, baseState]
  rcases hpr : toBigInt (jsVal (jsOr tx.effectiveGasPrice tx.gasPrice)) with _ | pr
  · left; simp [processTx, h1, h2, hg, hpr, baseState]
  cases h3 : truthyO tx.blockTimestamp with
  | false => left; simp [processTx, h1, h2, hg, hpr, h3, baseState]
  | true =>
  rcases hfp : fetchHistoricalETHPrice p (jsVal tx.blockTimestamp) with ⟨pcalls, res⟩
  rcases res with m | op
  · left; simp [processTx, h1, h2, hg, hpr, h3, hfp, baseState]
  rcases op with _ | v
  · rcases lastP with _ | lp
    · left; simp [processTx, h1, h2, hg, hpr, h3, hfp, baseState]
    · right
      refine ⟨g, pr, rfl, rfl, ?_, ?_⟩
      · simp [processTx, h1, h2, hg, hpr, h3, hfp, baseState, push]
      · simp [processTx, h1, h2, hg, hpr, h3, hfp, baseState, push]
  · right
    refine ⟨g, pr, rfl, rfl, ?_, ?_⟩
    · simp [processTx, h1, h2, hg, hpr, h3, hfp, baseState, push]
    · simp [processTx, h1, h2, hg, hpr, h3, hfp, baseState, push]

/-- A nonempty list is not isEmpty. -/
theorem isEmpty_eq_false_of_ne_nil {α : Type} {l : List α} (h : l ≠ []) :
    l.isEmpty = false := by
  cases l with
  | nil => exact absurd rfl h
  | cons a t => rfl

/-- A nonempty cursor string is truthy. -/
theorem truthyStr_some {c : String} (h : c ≠ "") : truthyStr (some c) = true := by
  simp [truthyStr, h]

/-- A nonempty transactions array is truthy. -/
theorem truthyList_some {l : List Tx} (h : l ≠ []) : truthyList (some l) = true := by
  simp [truthyList, isEmpty_eq_false_of_ne_nil h]

/-- Every request the history loop issues carries limit 50 and the
given address. -/
theorem fetchHistoryLoop_reqs (a : String) :
    ∀ (script : List PageResp) (cursor : Option String),
      ∀ r ∈ (fetchHistoryLoop a cursor script).1, r.limit = 50 ∧ r.address = a := by
  intro script
  induction script with
  | nil =>
    intro cursor r hr
    simp only [fetchHistoryLoop, List.mem_singleton] at hr
    subst hr; exact ⟨rfl, rfl⟩
  | cons resp rest ih =>
    intro cursor r hr
    cases resp with
    | err m =>
      simp only [fetchHistoryLoop, List.mem_singleton] at hr
      subst hr; exact ⟨rfl, rfl⟩
    | ok otxs nextCur =>
      cases h1 : truthyList otxs with
      | false =>
        simp only [fetchHistoryLoop, h1, Bool.false_eq_true, if_false,
          List.mem_singleton] at hr
        subst hr; exact ⟨rfl, rfl⟩
      | true =>
        cases h2 : truthyStr nextCur with
        | false =>
          simp only [fetchHistoryLoop, h1, h2, Bool.false_eq_true, if_true,
            if_false, List.mem_singleton] at hr
          subst hr; exact ⟨rfl, rfl⟩
        | true =>
          simp only [fetchHistoryLoop, h1, h2, if_true, List.mem_cons] at hr
          rcases hr with rfl | hr
          · exact ⟨rfl, rfl⟩
          · exact ih nextCur r hr

/-- A transport error on any page, reached after any run of full
continuing pages, aborts the whole fetch with that error (all pages
already fetched are discarded). -/
theorem fetchHistoryLoop_err (a m : String) (rest : List PageResp) :
    ∀ (pre : List PageResp),
      (∀ r ∈ pre, ∃ txs c, r = PageResp.ok (some txs) (some c) ∧ txs ≠ [] ∧ c ≠ "") →
      ∀ cursor,
        (fetchHistoryLoop a cursor (pre ++ PageResp.err m :: rest)).2 = Except.error m := by
  intro pre
  induction pre with
  | nil =>
    intro _ cursor
    simp [fetchHistoryLoop]
  | cons r pre ih =>
    intro hpre cursor
    obtain ⟨txs, c, rfl, htxs, hc⟩ := hpre r (by simp)
    have ih2 := ih (fun r hr => hpre r (by simp [hr])) (some c)
    simp only [List.cons_append, fetchHistoryLoop, truthyList_some htxs,
      truthyStr_some hc, if_true, List.append_eq]
    rw [ih2]

/-- C4: for every address, the history fetcher requests pages with limit
50, passing the cursor from the previous response on each request after
the first, terminates exactly when a response returns no cursor or an
empty/missing transaction list, and returns the concatenation of all
pages in the order supplied. -/
theorem claim_C4_pagination (a : String) (l1 l2 l3 : List Tx) (c1 c2 : String)
    (h1 : l1 ≠ []) (h2 : l2 ≠ []) (h3 : l3 ≠ []) (hc1 : c1 ≠ "") (hc2 : c2 ≠ "") :
    (∀ script r, r ∈ (fetchTransactionHistory a script).1 →
        r.limit = 50 ∧ r.address = a) ∧
    fetchTransactionHistory a
        [PageResp.ok (some l1) (some c1), PageResp.ok (some l2) (some c2),
         PageResp.ok (some l3) none] =
      ([⟨a, 50, none⟩, ⟨a, 50, some c1⟩, ⟨a, 50, some c2⟩],
        Except.ok (l1 ++ l2 ++ l3)) ∧
    (∀ rest, fetchTransactionHistory a
        (PageResp.ok (some l1) (some c1) :: PageResp.ok none (some c2) :: rest) =
      ([⟨a, 50, none⟩, ⟨a, 50, some c1⟩], Except.ok l1)) := by
  refine ⟨fun script r hr => fetchHistoryLoop_reqs a script none r hr, ?_, ?_⟩
  · simp [fetchTransactionHistory, fetchHistoryLoop, truthyStr, truthyList,
      h1, h2, h3, hc1, hc2]
  · intro rest
    simp [fetchTransactionHistory, fetchHistoryLoop, truthyStr, truthyList,
      h1, hc1]

/-- Witness for C4 at the shape of the spec's test sentence: pages of
50, 50 and 10 records yield exactly 110 records, in order, with the
cursors of the first two responses passed back on the following
requests. -/
theorem claim_C4_pagination_witness :
    (wPage1 ≠ [] ∧ wPage2 ≠ [] ∧ wPage3 ≠ [] ∧ ("cur1" : String) ≠ "" ∧
      ("cur2" : String) ≠ "") ∧
    fetchTransactionHistory "0xabc"
        [PageResp.ok (some wPage1) (some "cur1"),
         PageResp.ok (some wPage2) (some "cur2"),
         PageResp.ok (some wPage3) none] =
      ([⟨"0xabc", 50, none⟩, ⟨"0xabc", 50, some "cur1"⟩,
        ⟨"0xabc", 50, some "cur2"⟩], Except.ok (wPage1 ++ wPage2 ++ wPage3)) ∧
    (wPage1 ++ wPage2 ++ wPage3).length = 110 :=
  ⟨⟨by decide, by decide, by decide, by decide, by decide⟩,
   (claim_C4_pagination "0xabc" wPage1 wPage2 wPage3 "cur1" "cur2"
     (by decide) (by decide) (by decide) (by decide) (by decide)).2.1,
   by decide⟩

/-- C5: a transport/provider error on any page request aborts the whole
fetch with that error, pages already fetched are discarded (no partial
list is returned), and the boundary returns a single 500 failure
response carrying the message and zero partial data. -/
theorem claim_C5_fetch_error_aborts (a m : String) (pre rest : List PageResp)
    (price : Int → PriceApiResult)
    (hpre : ∀ r ∈ pre, ∃ txs c, r = PageResp.ok (some txs) (some c) ∧
      txs ≠ [] ∧ c ≠ "")
    (ha : a ≠ "") :
    (fetchTransactionHistory a (pre ++ PageResp.err m :: rest)).2 =
      Except.error m ∧
    GET (some a) (pre ++ PageResp.err m :: rest) price =
      ⟨500, .errObj m,
        (fetchTransactionHistory a (pre ++ PageResp.err m :: rest)).1, []⟩ := by
  have hf := fetchHistoryLoop_err a m rest pre hpre none
  refine ⟨hf, ?_⟩
  simp [GET, truthyStr_some ha, calculateTotalGasCost, fetchTransactionHistory,
    hf]

/-- Witness for C5: one full page, then a transport error; the fetch
errors out and GET returns a 500 error body with no transaction data. -/
theorem claim_C5_fetch_error_aborts_witness :
    ((∀ r ∈ w5pre, ∃ txs c, r = PageResp.ok (some txs) (some c) ∧
        txs ≠ [] ∧ c ≠ "") ∧ ("0xa" : String) ≠ "") ∧
    (fetchTransactionHistory "0xa" (w5pre ++ PageResp.err "boom" :: [])).2 =
      Except.error "boom" ∧
    GET (some "0xa") (w5pre ++ PageResp.err "boom" :: [])
        (fun _ => PriceApiResult.ok []) =
      ⟨500, .errObj "boom",
        (fetchTransactionHistory "0xa" (w5pre ++ PageResp.err "boom" :: [])).1,
        []⟩ := by
  have hpre : ∀ r ∈ w5pre, ∃ txs c, r = PageResp.ok (some txs) (some c) ∧
      txs ≠ [] ∧ c ≠ "" := by
    intro r hr
    simp only [w5pre, List.mem_singleton] at hr
    subst hr
    exact ⟨[wTx 0], "c", rfl, by decide, by decide⟩
  exact ⟨⟨hpre, by decide⟩,
    claim_C5_fetch_error_aborts "0xa" "boom" w5pre [] _ hpre (by decide)⟩

/-- C7: the aggregator's output is a deterministic function of the
address and the provider responses: two invocations with identical
inputs produce identical CallResult and identical GET responses (the
embedding takes no clock or ambient state input). -/
theorem claim_C7_deterministic (a1 a2 : String) (s1 s2 : List PageResp)
    (p1 p2 : Int → PriceApiResult) (ha : a1 = a2) (hs : s1 = s2)
    (hp : p1 = p2) :
    calculateTotalGasCost s1 p1 a1 = calculateTotalGasCost s2 p2 a2 ∧
    GET (some a1) s1 p1 = GET (some a2) s2 p2 := by
  subst ha; subst hs; subst hp; exact ⟨rfl, rfl⟩

/-- Witness for C7 at a concrete repeated invocation. -/
theorem claim_C7_deterministic_witness :
    (("0xa" : String) = "0xa" ∧ w5pre = w5pre ∧
      (fun _ : Int => PriceApiResult.ok [(2 : Rat)]) =
        (fun _ : Int => PriceApiResult.ok [(2 : Rat)])) ∧
    calculateTotalGasCost w5pre (fun _ => PriceApiResult.ok [(2 : Rat)]) "0xa" =
      calculateTotalGasCost w5pre (fun _ => PriceApiResult.ok [(2 : Rat)]) "0xa" ∧
    GET (some "0xa") w5pre (fun _ => PriceApiResult.ok [(2 : Rat)]) =
      GET (some "0xa") w5pre (fun _ => PriceApiResult.ok [(2 : Rat)]) :=
  ⟨⟨rfl, rfl, rfl⟩,
   claim_C7_deterministic "0xa" "0xa" w5pre w5pre _ _ rfl rfl rfl⟩

/-- C9: a missing or empty address parameter makes GET return 400 with
the error body Missing address parameter immediately, with no history
request and no price lookup issued. -/
theorem claim_C9_missing_address (addr : Option String)
    (script : List PageResp) (price : Int → PriceApiResult)
    (h : truthyStr addr = false) :
    GET addr script price = ⟨400, .errObj "Missing address parameter", [], []⟩ := by
  simp [GET, h]

/-- Witness for C9: both the absent parameter and the empty string get
the immediate 400 with empty request traces. -/
theorem claim_C9_missing_address_witness :
    (truthyStr none = false ∧ truthyStr (some "") = false) ∧
    GET none w5pre (fun _ => PriceApiResult.ok []) =
      ⟨400, .errObj "Missing address parameter", [], []⟩ ∧
    GET (some "") w5pre (fun _ => PriceApiResult.ok []) =
      ⟨400, .errObj "Missing address parameter", [], []⟩ :=
  ⟨⟨rfl, rfl⟩,
   claim_C9_missing_address none w5pre _ rfl,
   claim_C9_missing_address (some "") w5pre _ rfl⟩

/-- A transaction whose gas, price or timestamp check comes out falsy is
skipped: the loop body leaves the accumulator untouched, so the run over
any batch containing it equals the run over the batch without it. -/
theorem processTx_skip (p : Int → PriceApiResult) (tx : Tx)
    (h : truthyO (jsOr tx.gasUsed tx.gas) = false ∨
         truthyO (jsOr tx.effectiveGasPrice tx.gasPrice) = false ∨
         truthyO tx.blockTimestamp = false) :
    (∀ st, processTx p st tx = st) ∧
    ∀ pre post, aggregateTxs p (pre ++ tx :: post) = aggregateTxs p (pre ++ post) := by
  have hstep : ∀ st, processTx p st tx = st := by
    intro st
    rcases h with h | h | h
    · simp [processTx, h]
    · cases h1 : truthyO (jsOr tx.gasUsed tx.gas) with
      | false => simp [processTx, h1]
      | true => simp [processTx, h1, h]
    · cases h1 : truthyO (jsOr tx.gasUsed tx.gas) with
      | false => simp [processTx, h1]
      | true =>
        cases h2 : truthyO (jsOr tx.effectiveGasPrice tx.gasPrice) with
        | false => simp [processTx, h1, h2]
        | true =>
          rcases hg : toBigInt (jsVal (jsOr tx.gasUsed tx.gas)) with _ | g
          · simp [processTx, h1, h2, hg]
          rcases hpr : toBigInt (jsVal (jsOr tx.effectiveGasPrice tx.gasPrice)) with _ | pr
          · simp [processTx, h1, h2, hg, hpr]
          simp [processTx, h1, h2, hg, hpr, h]
  refine ⟨hstep, ?_⟩
  intro pre post
  unfold aggregateTxs
  rw [List.foldl_append, List.foldl_append, List.foldl_cons, hstep]

/-- C6: a transaction missing both gas fields, or both gas-price fields,
or the block timestamp, is skipped: the loop step is the identity on the
accumulator, the entry is absent from the breakdown and contributes 0 to
every total, and the rest of the batch is processed as if the
transaction were not there. -/
theorem claim_C6_missing_field_skip (p : Int → PriceApiResult) (tx : Tx)
    (h : truthyO (jsOr tx.gasUsed tx.gas) = false ∨
         truthyO (jsOr tx.effectiveGasPrice tx.gasPrice) = false ∨
         truthyO tx.blockTimestamp = false) :
    (∀ st, processTx p st tx = st) ∧
    ∀ pre post, aggregateTxs p (pre ++ tx :: post) = aggregateTxs p (pre ++ post) :=
  processTx_skip p tx h

/-- Witness for C6: a transaction with neither gasUsed nor gas, placed
between two normal transactions, leaves the aggregation equal to the run
without it. -/
theorem claim_C6_missing_field_skip_witness :
    (truthyO (jsOr txM.gasUsed txM.gas) = false ∨
      truthyO (jsOr txM.effectiveGasPrice txM.gasPrice) = false ∨
      truthyO txM.blockTimestamp = false) ∧
    processTx (fun _ => PriceApiResult.ok [(2 : Rat)]) initAggState txM = initAggState ∧
    aggregateTxs (fun _ => PriceApiResult.ok [(2 : Rat)]) ([wTx 0] ++ txM :: [wTx 1]) =
      aggregateTxs (fun _ => PriceApiResult.ok [(2 : Rat)]) ([wTx 0] ++ [wTx 1]) := by
  have h : truthyO (jsOr txM.gasUsed txM.gas) = false ∨
      truthyO (jsOr txM.effectiveGasPrice txM.gasPrice) = false ∨
      truthyO txM.blockTimestamp = false := by decide
  exact ⟨h,
    (claim_C6_missing_field_skip _ txM h).1 initAggState,
    (claim_C6_missing_field_skip _ txM h).2 [wTx 0] [wTx 1]⟩

/-- C10: field presence is JS truthiness, not key existence: a present
but falsy field value (numeric 0, empty string) in the gas slot, the
gas-price slot or the timestamp slot makes the transaction count as
missing that field, so it is skipped exactly like an absent field. -/
theorem claim_C10_falsy_is_missing (v : FieldVal) (hv : truthy v = false)
    (p : Int → PriceApiResult) (tx : Tx)
    (h : (tx.gasUsed = some v ∧ tx.gas = none) ∨
         (tx.effectiveGasPrice = some v ∧ tx.gasPrice = none) ∨
         tx.blockTimestamp = some v) :
    (∀ st, processTx p st tx = st) ∧
    ∀ pre post, aggregateTxs p (pre ++ tx :: post) = aggregateTxs p (pre ++ post) := by
  apply processTx_skip
  rcases h with ⟨ha, hb⟩ | ⟨ha, hb⟩ | ha
  · left; simp [jsOr, truthyO, ha, hb, hv]
  · right; left; simp [jsOr, truthyO, ha, hb, hv]
  · right; right; simp [truthyO, ha, hv]

/-- Witness for C10: gasUsed present as numeric 0, and effectiveGasPrice
present as the empty string, each make the transaction skipped and
absent from the run. -/
theorem claim_C10_falsy_is_missing_witness :
    (truthy (FieldVal.num 0) = false ∧ truthy (FieldVal.str "") = false) ∧
    (processTx (fun _ => PriceApiResult.ok [(2 : Rat)]) initAggState tx10a = initAggState ∧
      aggregateTxs (fun _ => PriceApiResult.ok [(2 : Rat)]) ([wTx 0] ++ tx10a :: [wTx 1]) =
        aggregateTxs (fun _ => PriceApiResult.ok [(2 : Rat)]) ([wTx 0] ++ [wTx 1])) ∧
    (processTx (fun _ => PriceApiResult.ok [(2 : Rat)]) initAggState tx10b = initAggState ∧
      aggregateTxs (fun _ => PriceApiResult.ok [(2 : Rat)]) ([wTx 0] ++ tx10b :: [wTx 1]) =
        aggregateTxs (fun _ => PriceApiResult.ok [(2 : Rat)]) ([wTx 0] ++ [wTx 1])) := by
  have ha := claim_C10_falsy_is_missing (FieldVal.num 0) (by decide)
    (fun _ => PriceApiResult.ok [(2 : Rat)]) tx10a (Or.inl ⟨rfl, rfl⟩)
  have hb := claim_C10_falsy_is_missing (FieldVal.str "") (by decide)
    (fun _ => PriceApiResult.ok [(2 : Rat)]) tx10b (Or.inr (Or.inl ⟨rfl, rfl⟩))
  exact ⟨⟨by decide, by decide⟩,
    ⟨ha.1 initAggState, ha.2 [wTx 0] [wTx 1]⟩,
    ⟨hb.1 initAggState, hb.2 [wTx 0] [wTx 1]⟩⟩

/-- C3: when a price lookup returns not-found, the last known good
price of the run is used for that transaction's USD cost and the
last-known-good slot is not updated; when no price has been resolved
yet in the run, the transaction is skipped entirely and the run keeps
only the price-call traces. -/
theorem claim_C3_price_fallback (h1s h2s : String) (g1 pr1 ts1 g2 pr2 ts2 : Int)
    (x : Rat) (hg1 : g1 ≠ 0) (hpr1 : pr1 ≠ 0) (hts1 : ts1 ≠ 0)
    (hg2 : g2 ≠ 0) (hpr2 : pr2 ≠ 0) (hts2 : ts2 ≠ 0) (hne : ts2 ≠ ts1) :
    (aggregateTxs (fun t => if t = ts1 then PriceApiResult.ok [x] else PriceApiResult.ok [])
        [mkTx h1s g1 pr1 ts1, mkTx h2s g2 pr2 ts2]).txCosts =
      [⟨h1s, some (.num ts1), ((g1 * pr1 : Int) : Rat) / 10 ^ 18,
        ((g1 * pr1 : Int) : Rat) / 10 ^ 18 * x⟩,
       ⟨h2s, some (.num ts2), ((g2 * pr2 : Int) : Rat) / 10 ^ 18,
        ((g2 * pr2 : Int) : Rat) / 10 ^ 18 * x⟩] ∧
    (aggregateTxs (fun t => if t = ts1 then PriceApiResult.ok [x] else PriceApiResult.ok [])
        [mkTx h1s g1 pr1 ts1, mkTx h2s g2 pr2 ts2]).lastValidPrice = some x ∧
    (∀ st y, st.lastValidPrice = some y →
      (processTx (fun _ => PriceApiResult.ok []) st (mkTx h2s g2 pr2 ts2)).lastValidPrice
        = some y) ∧
    aggregateTxs (fun _ => PriceApiResult.ok [])
        [mkTx h1s g1 pr1 ts1, mkTx h2s g2 pr2 ts2] =
      { initAggState with priceCalls := [ts1, ts2] } := by
  refine ⟨?_, ?_, ?_, ?_⟩
  · simp [aggregateTxs, initAggState, processTx, mkTx, jsOr, truthyO, truthy,
      jsVal, toBigInt, toNumber, fetchHistoricalETHPrice, push, hg1, hpr1,
      hts1, hg2, hpr2, hts2, hne]
  · simp [aggregateTxs, initAggState, processTx, mkTx, jsOr, truthyO, truthy,
      jsVal, toBigInt, toNumber, fetchHistoricalETHPrice, push, hg1, hpr1,
      hts1, hg2, hpr2, hts2, hne]
  · intro st y hy
    simp [processTx, mkTx, jsOr, truthyO, truthy, jsVal, toBigInt, toNumber,
      fetchHistoricalETHPrice, push, hg2, hpr2, hts2, hy]
  · simp [aggregateTxs, initAggState, processTx, mkTx, jsOr, truthyO, truthy,
      jsVal, toBigInt, toNumber, fetchHistoricalETHPrice, push, hg1, hpr1,
      hts1, hg2, hpr2, hts2]

/-- Witness for C3 at the spec's test scenario: transaction 1 resolves
price 2, transaction 2 is not found and uses 2; with no resolvable price
at all both are skipped and only the price calls remain. -/
theorem claim_C3_price_fallback_witness :
    ((21000 : Int) ≠ 0 ∧ (5 : Int) ≠ 0 ∧ (100 : Int) ≠ 0 ∧ (30000 : Int) ≠ 0 ∧
      (7 : Int) ≠ 0 ∧ (200 : Int) ≠ 0 ∧ (200 : Int) ≠ 100) ∧
    (aggregateTxs (fun t => if t = 100 then PriceApiResult.ok [(2 : Rat)] else PriceApiResult.ok [])
        [mkTx "a" 21000 5 100, mkTx "b" 30000 7 200]).txCosts =
      [⟨"a", some (.num 100), ((21000 * 5 : Int) : Rat) / 10 ^ 18,
        ((21000 * 5 : Int) : Rat) / 10 ^ 18 * 2⟩,
       ⟨"b", some (.num 200), ((30000 * 7 : Int) : Rat) / 10 ^ 18,
        ((30000 * 7 : Int) : Rat) / 10 ^ 18 * 2⟩] ∧
    aggregateTxs (fun _ => PriceApiResult.ok [])
        [mkTx "a" 21000 5 100, mkTx "b" 30000 7 200] =
      { initAggState with priceCalls := [100, 200] } := by
  have h := claim_C3_price_fallback "a" "b" 21000 5 100 30000 7 200 2
    (by decide) (by decide) (by decide) (by decide) (by decide) (by decide)
    (by decide)
  exact ⟨⟨by decide, by decide, by decide, by decide, by decide, by decide,
    by decide⟩, h.1, h.2.2.2⟩

/-- C1 counterexample: the price resolver hard-errors ("boom") on the
only transaction of the run and was in fact consulted (the price-call
trace holds its timestamp), yet calculateTotalGasCost does not abort: it
returns an AggregateResult with that transaction skipped, because the
per-transaction try/catch of the source swallows the rethrown error. -/
theorem claim_C1_counterexample :
    c1price 5 = PriceApiResult.err "boom" ∧
    (calculateTotalGasCost c1script c1price "0xa").priceCalls = [5] ∧
    (calculateTotalGasCost c1script c1price "0xa").result =
      Except.ok ⟨"0", 0, "0.00", []⟩ :=
  ⟨rfl, by decide, by decide⟩

/-- C1 (amended): a hard price-resolver error during a transaction is
caught by the per-transaction handler: that transaction contributes
nothing to the totals or the breakdown and the loop continues; the
aggregation returns a result exactly when the history fetch succeeds
(only fetch errors abort and propagate). -/
theorem claim_C1_hard_error_continues (script : List PageResp)
    (p : Int → PriceApiResult) (a : String) :
    (∀ txs, (fetchTransactionHistory a script).2 = Except.ok txs →
      (calculateTotalGasCost script p a).result =
        Except.ok (buildResult (aggregateTxs p txs))) ∧
    (∀ m, (fetchTransactionHistory a script).2 = Except.error m →
      (calculateTotalGasCost script p a).result = Except.error m) ∧
    (∀ st tx, (∃ e, (fetchHistoricalETHPrice p (jsVal tx.blockTimestamp)).2 =
        Except.error e) →
      (processTx p st tx).totalGasCostWei = st.totalGasCostWei ∧
      (processTx p st tx).totalGasCostETH = st.totalGasCostETH ∧
      (processTx p st tx).totalGasCostUSD = st.totalGasCostUSD ∧
      (processTx p st tx).txCosts = st.txCosts) := by
  refine ⟨?_, ?_, ?_⟩
  · intro txs h
    simp [calculateTotalGasCost, h]
  · intro m h
    simp [calculateTotalGasCost, h]
  · rintro st tx ⟨e, he⟩
    cases h1 : truthyO (jsOr tx.gasUsed tx.gas) with
    | false => simp [processTx, h1]
    | true =>
    cases h2 : truthyO (jsOr tx.effectiveGasPrice tx.gasPrice) with
    | false => simp [processTx, h1, h2]
    | true =>
    rcases hg : toBigInt (jsVal (jsOr tx.gasUsed tx.gas)) with _ | g
    · simp [processTx, h1, h2, hg]
    rcases hpr : toBigInt (jsVal (jsOr tx.effectiveGasPrice tx.gasPrice)) with _ | pr
    · simp [processTx, h1, h2, hg, hpr]
    cases h3 : truthyO tx.blockTimestamp with
    | false => simp [processTx, h1, h2, hg, hpr, h3]
    | true =>
    rcases hfp : fetchHistoricalETHPrice p (jsVal tx.blockTimestamp) with ⟨pcalls, res⟩
    rw [hfp] at he
    simp only at he
    subst he
    simp [processTx, h1, h2, hg, hpr, h3, hfp]

/-- Witness for C1 (amended) at the counterexample's input: the fetch
succeeds, so the call returns the built result even though the price
provider errors, and the erroring step leaves the accumulator's totals
and breakdown unchanged. -/
theorem claim_C1_hard_error_continues_witness :
    ((fetchTransactionHistory "0xa" c1script).2 = Except.ok [c1tx] ∧
      (fetchHistoricalETHPrice c1price (jsVal c1tx.blockTimestamp)).2 =
        Except.error "boom") ∧
    (calculateTotalGasCost c1script c1price "0xa").result =
      Except.ok (buildResult (aggregateTxs c1price [c1tx])) ∧
    (processTx c1price initAggState c1tx).txCosts = initAggState.txCosts := by
  have h := claim_C1_hard_error_continues c1script c1price "0xa"
  exact ⟨⟨by decide, by decide⟩,
    h.1 [c1tx] (by decide),
    (h.2.2 initAggState c1tx ⟨"boom", by decide⟩).2.2.2⟩

/-- C2: per transaction the smallest-unit cost is the exact product of
the two parsed arbitrary-precision integers, the loop's wei total is the
exact integer sum of the per-transaction contributions (skipped
transactions contributing zero and no breakdown entry), and the returned
totalGasCostWei string is the decimal rendering of that exact sum. -/
theorem claim_C2_exact_wei (script : List PageResp)
    (p : Int → PriceApiResult) (a : String) :
    (∀ (txs : List Tx) (st : AggState),
      (txs.foldl (processTx p) st).totalGasCostWei =
        st.totalGasCostWei + (perTxWei p st.lastValidPrice txs).sum) ∧
    (∀ (lastP : Option Rat) (tx : Tx),
      ((processTx p (baseState lastP) tx).totalGasCostWei = 0 ∧
          (processTx p (baseState lastP) tx).txCosts = []) ∨
        ∃ g pr, toBigInt (jsVal (jsOr tx.gasUsed tx.gas)) = some g ∧
          toBigInt (jsVal (jsOr tx.effectiveGasPrice tx.gasPrice)) = some pr ∧
          (processTx p (baseState lastP) tx).totalGasCostWei = g * pr ∧
          (processTx p (baseState lastP) tx).txCosts.map TxCost.hash = [tx.hash]) ∧
    (∀ r, (calculateTotalGasCost script p a).result = Except.ok r →
      ∃ txs, (fetchTransactionHistory a script).2 = Except.ok txs ∧
        r.totalGasCostWei = Int.repr (perTxWei p none txs).sum) := by
  refine ⟨foldl_wei p, perTx_element p, ?_⟩
  intro r hr
  rcases hfe : (fetchTransactionHistory a script).2 with m | txs
  · rw [calculateTotalGasCost, hfe] at hr
    simp at hr
  · rw [calculateTotalGasCost, hfe] at hr
    simp only [Except.ok.injEq] at hr
    subst hr
    refine ⟨txs, rfl, ?_⟩
    show Int.repr (aggregateTxs p txs).totalGasCostWei = _
    unfold aggregateTxs
    rw [foldl_wei]
    simp [initAggState]

/-- Witness for C2 at gas quantities 2^60 and 2^61, both above 2^53:
the returned wei string is the exact decimal of 2^121 and equals the
rendering of the per-transaction contribution sum. -/
theorem claim_C2_exact_wei_witness :
    ((calculateTotalGasCost w2script w2price "0xw").result = Except.ok w2res ∧
      (2 : Int) ^ 53 < 2 ^ 60 ∧ (2 : Int) ^ 53 < 2 ^ 61 ∧
      w2res.totalGasCostWei = "2658455991569831745807614120560689152") ∧
    (∃ txs, (fetchTransactionHistory "0xw" w2script).2 = Except.ok txs ∧
      w2res.totalGasCostWei = Int.repr (perTxWei w2price none txs).sum) :=
  ⟨⟨by decide, by decide, by decide, rfl⟩,
   (claim_C2_exact_wei w2script w2price "0xw").2.2 w2res (by decide)⟩

/-- A digit value below 10 renders as a digit character. -/
theorem digitChar_isDigit {d : Nat} (h : d < 10) :
    (Nat.digitChar d).isDigit = true := by
  interval_cases d <;> rfl

/-- Every character that Nat.toDigitsCore pushes is a digit. -/
theorem toDigitsCore_digits :
    ∀ (fuel n : Nat) (acc : List Char), (∀ c ∈ acc, c.isDigit = true) →
      ∀ c ∈ Nat.toDigitsCore 10 fuel n acc, c.isDigit = true := by
  intro fuel
  induction fuel with
  | zero =>
    intro n acc hacc c hc
    exact hacc c hc
  | succ fuel ih =>
    intro n acc hacc c hc
    simp only [Nat.toDigitsCore] at hc
    by_cases h : n / 10 = 0
    · rw [if_pos h] at hc
      rcases List.mem_cons.mp hc with rfl | hc
      · exact digitChar_isDigit (Nat.mod_lt _ (by norm_num))
      · exact hacc c hc
    · rw [if_neg h] at hc
      refine ih (n / 10) _ ?_ c hc
      intro c' hc'
      rcases List.mem_cons.mp hc' with rfl | hc'
      · exact digitChar_isDigit (Nat.mod_lt _ (by norm_num))
      · exact hacc c' hc'

/-- Nat.toDigitsCore never returns the empty list when given fuel. -/
theorem toDigitsCore_ne_nil :
    ∀ (fuel n : Nat) (acc : List Char), acc ≠ [] ∨ fuel ≠ 0 →
      Nat.toDigitsCore 10 fuel n acc ≠ [] := by
  intro fuel
  induction fuel with
  | zero =>
    intro n acc h
    rcases h with h | h
    · exact h
    · exact absurd rfl h
  | succ fuel ih =>
    intro n acc _
    simp only [Nat.toDigitsCore]
    by_cases hd : n / 10 = 0
    · rw [if_pos hd]
      exact List.cons_ne_nil _ _
    · rw [if_neg hd]
      exact ih (n / 10) _ (Or.inl (List.cons_ne_nil _ _))

/-- The decimal rendering of a natural is its digit-character list. -/
theorem natRepr_data (n : Nat) : (Nat.repr n).data = Nat.toDigits 10 n := rfl

/-- The decimal rendering of a natural consists of digit characters. -/
theorem natRepr_digits (n : Nat) : ∀ c ∈ (Nat.repr n).data, c.isDigit = true := by
  rw [natRepr_data]
  exact toDigitsCore_digits (n + 1) n [] (by intro c hc; cases hc)

/-- The decimal rendering of a natural is nonempty. -/
theorem natRepr_ne_nil (n : Nat) : (Nat.repr n).data ≠ [] := by
  rw [natRepr_data]
  exact toDigitsCore_ne_nil (n + 1) n [] (Or.inr (Nat.succ_ne_zero _))

/-- A character list of the shape digits-dot-two-digits satisfies the
two-fractional-digit check, with or without a leading minus sign. -/
theorem decideTwoFrac_body (A : List Char) (e1 e2 : Char) (hA : A ≠ [])
    (hAd : ∀ c ∈ A, c.isDigit = true) (he1 : e1.isDigit = true)
    (he2 : e2.isDigit = true) :
    decideTwoFrac (A ++ '.' :: [e1, e2]) = true ∧
    decideTwoFrac ('-' :: (A ++ '.' :: [e1, e2])) = true := by
  have hrevne : A.reverse ≠ [] := fun h => hA (by simpa using h)
  have hstrip1 : stripSign (A ++ '.' :: [e1, e2]) = A ++ '.' :: [e1, e2] := by
    obtain ⟨c, t, rfl⟩ := List.exists_cons_of_ne_nil hA
    have hc := hAd c (by simp)
    have hcm : ¬ c = '-' := by
      intro h
      rw [h] at hc
      exact absurd hc (by decide)
    simp [stripSign, hcm]
  have hstrip2 : stripSign ('-' :: (A ++ '.' :: [e1, e2])) = A ++ '.' :: [e1, e2] := by
    simp [stripSign]
  have hrev : (A ++ '.' :: [e1, e2]).reverse = e2 :: e1 :: '.' :: A.reverse := by
    simp
  have core : ('.' == '.' && e1.isDigit && e2.isDigit && !A.reverse.isEmpty &&
      A.reverse.all Char.isDigit) = true := by
    simp [he1, he2, isEmpty_eq_false_of_ne_nil hrevne, List.all_eq_true]
    intro c hc
    exact hAd c hc
  constructor
  · simp only [decideTwoFrac, hstrip1, hrev]
    exact core
  · simp only [decideTwoFrac, hstrip2, hrev]
    exact core

/-- Below the 10^21 threshold, toFixed on a nonnegative value produces a
digits-dot-two-digits body. -/
theorem toFixed2abs_body (q : Rat) (hq : ¬ (10 : Rat) ^ 21 ≤ q) :
    ∃ A e1 e2, (toFixed2abs q).data = A ++ '.' :: [e1, e2] ∧ A ≠ [] ∧
      (∀ c ∈ A, c.isDigit = true) ∧ e1.isDigit = true ∧ e2.isDigit = true := by
  refine ⟨(Nat.repr (ratTrunc (100 * q + 1 / 2) / 100)).data,
    Nat.digitChar (ratTrunc (100 * q + 1 / 2) % 100 / 10),
    Nat.digitChar (ratTrunc (100 * q + 1 / 2) % 100 % 10), ?_,
    natRepr_ne_nil _, natRepr_digits _,
    digitChar_isDigit (by omega), digitChar_isDigit (by omega)⟩
  simp only [toFixed2abs, if_neg hq, twoDigitChars]
  simp [String.data_append]

/-- Any rational of magnitude below 10^21 renders under toFixed2 with
exactly two fractional digits. -/
theorem toFixed2_twoFrac {q : Rat} (hlb : -((10 : Rat) ^ 21) < q)
    (hub : q < (10 : Rat) ^ 21) : twoFracDigits (toFixed2 q) = true := by
  unfold twoFracDigits toFixed2
  by_cases hq : q < 0
  · rw [if_pos hq]
    have hb : ¬ (10 : Rat) ^ 21 ≤ -q := by
      rw [not_le]
      linarith
    obtain ⟨A, e1, e2, hdata, hA, hAd, he1, he2⟩ := toFixed2abs_body (-q) hb
    have hmdata : ("-" ++ toFixed2abs (-q)).data = '-' :: (A ++ '.' :: [e1, e2]) := by
      rw [String.data_append, hdata]
      rfl
    rw [hmdata]
    exact (decideTwoFrac_body A e1 e2 hA hAd he1 he2).2
  · rw [if_neg hq]
    have hb : ¬ (10 : Rat) ^ 21 ≤ q := not_le.mpr hub
    obtain ⟨A, e1, e2, hdata, hA, hAd, he1, he2⟩ := toFixed2abs_body q hb
    rw [hdata]
    exact (decideTwoFrac_body A e1 e2 hA hAd he1 he2).1

/-- C8 counterexample: a run whose USD total is 10^21 renders its
totalGasCostUSD as the exponential string 1e+21 (toFixed falls back to
Number::toString at that magnitude), which does not have two fractional
digits, refuting the claim for every AggregateResult. -/
theorem claim_C8_counterexample :
    (calculateTotalGasCost c8script c8price "0xc").result = Except.ok c8res ∧
    c8res.totalGasCostUSD = "1e+21" ∧
    twoFracDigits c8res.totalGasCostUSD = false :=
  ⟨by decide, rfl, by decide⟩

/-- C8 (amended): every AggregateResult is built by buildResult, and its
totalGasCostUSD has exactly two fractional digits whenever the
accumulated USD sum has magnitude below 10^21; at or above 10^21 the
ECMA-262 toFixed algorithm falls back to exponential Number::toString
notation. -/
theorem claim_C8_usd_two_decimals (st : AggState)
    (hlb : -((10 : Rat) ^ 21) < st.totalGasCostUSD)
    (hub : st.totalGasCostUSD < (10 : Rat) ^ 21) :
    twoFracDigits (buildResult st).totalGasCostUSD = true ∧
    (∀ script p a r, (calculateTotalGasCost script p a).result = Except.ok r →
      ∃ st2, r = buildResult st2 ∧
        r.totalGasCostUSD = toFixed2 st2.totalGasCostUSD) := by
  constructor
  · exact toFixed2_twoFrac hlb hub
  · intro script p a r hr
    rcases hfe : (fetchTransactionHistory a script).2 with m | txs
    · rw [calculateTotalGasCost, hfe] at hr
      simp at hr
    · rw [calculateTotalGasCost, hfe] at hr
      simp only [Except.ok.injEq] at hr
      subst hr
      exact ⟨aggregateTxs p txs, rfl, rfl⟩

/-- Witness for C8 (amended): a USD total of exactly 10 renders as
10.00, two fractional digits as required, and a concrete successful call
factors through buildResult. -/
theorem claim_C8_usd_two_decimals_witness :
    (-((10 : Rat) ^ 21) < w8st.totalGasCostUSD ∧
      w8st.totalGasCostUSD < (10 : Rat) ^ 21 ∧
      (buildResult w8st).totalGasCostUSD = "10.00") ∧
    twoFracDigits (buildResult w8st).totalGasCostUSD = true ∧
    (∃ st2, w2res = buildResult st2 ∧
      w2res.totalGasCostUSD = toFixed2 st2.totalGasCostUSD) := by
  have h := claim_C8_usd_two_decimals w8st (by decide) (by decide)
  exact ⟨⟨by decide, by decide, by decide⟩, h.1,
    h.2 w2script w2price "0xw" w2res (by decide)⟩

end GasChecker
